import Mathlib

/-!
Verification development for the Hostly iCal sync backend (`src/index.js`).

The JavaScript source is shallowly embedded below:
* instants are integers (milliseconds since the Unix epoch, as in a JS `Date`);
* JS strings are Lean `String`s, with the regex/`trim`/`toLowerCase` operations
  used by the source implemented over `List Char`;
* the in-memory `propertyCache` object is an association list that preserves
  insertion order (updates in place, new keys appended), matching `for ... in`
  enumeration over the cache's string keys;
* the network fetch (`ical.async.fromURL`) is a parameter: a function from the
  url to either a decoded event list or a thrown error message, so the
  `try/catch` in `parseIcal` becomes a `match` on `Except`.
-/

namespace Hostly

/-- JS regex `\s` / `String.prototype.trim` whitespace: ASCII whitespace plus
the Unicode space characters and line terminators JS includes. -/
def isJsSpace (c : Char) : Bool :=
  c == ' ' || c == '\t' || c == '\n' || c == '\r' ||
  c.toNat == 0x0b || c.toNat == 0x0c ||
  c.toNat == 0xa0 || c.toNat == 0x1680 ||
  (0x2000 ≤ c.toNat && c.toNat ≤ 0x200a) ||
  c.toNat == 0x2028 || c.toNat == 0x2029 ||
  c.toNat == 0x202f || c.toNat == 0x205f ||
  c.toNat == 0x3000 || c.toNat == 0xfeff

/-- JS line terminators, the characters `.` does not match in a regex
without the `s` flag. -/
def isLineTerm (c : Char) : Bool :=
  c == '\n' || c == '\r' || c.toNat == 0x2028 || c.toNat == 0x2029

/-- ASCII lower-casing, the fragment of `toLowerCase` / regex `i`-flag
canonicalisation exercised by the source's ASCII patterns. -/
def lowerChar (c : Char) : Char :=
  if 'A' ≤ c ∧ c ≤ 'Z' then Char.ofNat (c.toNat + 32) else c

def lowerStr (l : List Char) : List Char := l.map lowerChar

/-- `hay.includes(needle)`: some position of `hay` starts with `needle`. -/
def hasSubstr : List Char → List Char → Bool
  | [], n => n.isPrefixOf ([] : List Char)
  | h :: t, n => n.isPrefixOf (h :: t) || hasSubstr t n

/-- `String.prototype.trim`. -/
def trimJS (l : List Char) : List Char :=
  ((l.dropWhile isJsSpace).reverse.dropWhile isJsSpace).reverse

/-- Backtracking match of the regex tail `\s*(.+)` (greedy `\s*`, then `.`
does not cross line terminators); returns the text captured by the group. -/
def wsDotPlus : List Char → Option (List Char)
  | [] => none
  | c :: rest =>
    if isJsSpace c then
      match wsDotPlus rest with
      | some g => some g
      | none =>
        if isLineTerm c then none
        else some ((c :: rest).takeWhile (fun d => !isLineTerm d))
    else
      if isLineTerm c then none
      else some ((c :: rest).takeWhile (fun d => !isLineTerm d))

/-- One attempt of `/reserved\s*[-–]\s*(.+)/i` anchored at the head of `l`.
The first `\s*` cannot backtrack usefully because neither `-` nor `–` is
whitespace, so the maximal whitespace run is the only candidate. -/
def tryReservedAt (l : List Char) : Option (List Char) :=
  if lowerStr (l.take 8) = "reserved".toList then
    match (l.drop 8).dropWhile isJsSpace with
    | c :: r2 => if c == '-' || c.toNat == 0x2013 then wsDotPlus r2 else none
    | [] => none
  else none

/-- `summary.match(/reserved\s*[-–]\s*(.+)/i)`: leftmost match, group 1. -/
def scanReserved : List Char → Option (List Char)
  | [] => none
  | c :: rest =>
    match tryReservedAt (c :: rest) with
    | some g => some g
    | none => scanReserved rest

/-- One attempt of `/(?:guest|name):\s*(.+)/i` anchored at the head of `l`;
the alternation tries `guest` before `name`. -/
def tryGuestNameAt (l : List Char) : Option (List Char) :=
  let tryLabel : List Char → Option (List Char) := fun lab =>
    if lowerStr (l.take lab.length) = lab then
      match l.drop lab.length with
      | c :: r2 => if c == ':' then wsDotPlus r2 else none
      | [] => none
    else none
  match tryLabel "guest".toList with
  | some g => some g
  | none => tryLabel "name".toList

/-- `description.match(/(?:guest|name):\s*(.+)/i)`: leftmost match, group 1. -/
def scanGuestName : List Char → Option (List Char)
  | [] => none
  | c :: rest =>
    match tryGuestNameAt (c :: rest) with
    | some g => some g
    | none => scanGuestName rest

/-- Civil date from days since 1970-01-01 (the day count a JS `Date`
computes as `floor(t / 86400000)`), by the standard era decomposition
used for proleptic-Gregorian conversion. Returns (year, month, day). -/
def civilFromDays (z : Int) : Int × Nat × Nat :=
  let z' := z + 719468
  let era := Int.fdiv z' 146097
  let doe := (z' - era * 146097).toNat
  let yoe := (doe - doe / 1460 + doe / 36524 - doe / 146096) / 365
  let doy := doe - (365 * yoe + yoe / 4 - yoe / 100)
  let mp := (5 * doy + 2) / 153
  let d := doy - (153 * mp + 2) / 5 + 1
  let m := if mp < 10 then mp + 3 else mp - 9
  (era * 400 + yoe + (if m ≤ 2 then 1 else 0), m, d)

/-- Decimal digits of `n`, left-padded with zeros to width `w`. -/
def padNum (w n : Nat) : List Char :=
  let s := (toString n).toList
  List.replicate (w - s.length) '0' ++ s

/-- The year part of `Date.prototype.toISOString`: four digits for years
0–9999, otherwise a sign and six digits (the expanded-year format). -/
def isoYear (y : Int) : List Char :=
  if 0 ≤ y ∧ y ≤ 9999 then padNum 4 y.toNat
  else if y < 0 then '-' :: padNum 6 (-y).toNat
  else '+' :: padNum 6 y.toNat

/-- `new Date(t).toISOString()` for the instant `t` in milliseconds. -/
def isoOfMs (t : Int) : List Char :=
  let day := Int.fdiv t 86400000
  let ms := (t - day * 86400000).toNat
  let ymd := civilFromDays day
  isoYear ymd.1 ++ '-' :: padNum 2 ymd.2.1 ++ '-' :: padNum 2 ymd.2.2 ++
  'T' :: padNum 2 (ms / 3600000) ++ ':' :: padNum 2 (ms % 3600000 / 60000) ++
  ':' :: padNum 2 (ms % 60000 / 1000) ++ '.' :: padNum 3 (ms % 1000) ++ ['Z']

/-- `toISOString().split("T")[0]`: the date part `YYYY-MM-DD`. -/
def dateOnly (t : Int) : List Char :=
  (isoOfMs t).takeWhile (fun c => c != 'T')

/-- `Math.round((checkOut - checkIn) / (1000*60*60*24))` on the exact
value: JS `Math.round x` is `⌊x + 1/2⌋`, and
`⌊d/86400000 + 1/2⌋ = ⌊(2*d + 86400000) / 172800000⌋`. -/
def nightCount (checkIn checkOut : Int) : Int :=
  Int.fdiv (2 * (checkOut - checkIn) + 86400000) 172800000

/-- One decoded calendar entry as surfaced by `node-ical`: the fields the
source reads. `none` models a JS `undefined` field; instants are `Date`
time values in milliseconds. -/
structure IcalEvent where
  type : String
  summary : Option String
  description : Option String
  start : Option Int
  «end» : Option Int
  uid : Option String
deriving DecidableEq

/-- One emitted reservation object (`reservations.push({...})`). -/
structure Reservation where
  id : String
  propertyId : String
  guestName : String
  checkIn : String
  checkOut : String
  nights : Int
  total : Int
  source : String
  summary : String
deriving DecidableEq

/-- `event.summary || ""`. -/
def summaryOf (ev : IcalEvent) : String := ev.summary.getD ""

/-- The blackout test of `parseIcal`:
`summary.toLowerCase().includes("not available") ||
 summary.toLowerCase().includes("airbnb") && !summary.toLowerCase().includes("reserved")`
(JS `&&` binds tighter than `||`). -/
def isBlocked (summary : List Char) : Bool :=
  hasSubstr (lowerStr summary) "not available".toList ||
  (hasSubstr (lowerStr summary) "airbnb".toList &&
    !hasSubstr (lowerStr summary) "reserved".toList)

/-- The guest-name extraction of `parseIcal`: summary regex first, then the
description regex when `event.description` is truthy, else the fallback. -/
def extractGuestName (summary : List Char) (description : Option String) :
    List Char :=
  match scanReserved summary with
  | some g => trimJS g
  | none =>
    match description with
    | some d =>
      if d = "" then "Airbnb Guest".toList
      else
        match scanGuestName d.toList with
        | some g => trimJS g
        | none => "Airbnb Guest".toList
    | none => "Airbnb Guest".toList

/-- `event.uid || propertyId + "-" + checkIn.toISOString()` (an empty uid
is falsy in JS, so it is replaced by the synthesized id as well). -/
def eventId (propertyId : String) (ev : IcalEvent) (checkIn : Int) : String :=
  match ev.uid with
  | some u =>
    if u = "" then propertyId ++ "-" ++ String.mk (isoOfMs checkIn) else u
  | none => propertyId ++ "-" ++ String.mk (isoOfMs checkIn)

/-- The body of the `for (const key in events)` loop of `parseIcal`: either
skips the event (`continue`) or produces the pushed reservation object. -/
def classify (propertyId : String) (ev : IcalEvent) : Option Reservation :=
  if ev.type ≠ "VEVENT" then none
  else if isBlocked (summaryOf ev).toList then none
  else
    match ev.start, ev.«end» with
    | some i, some o =>
      some {
        id := eventId propertyId ev i
        propertyId := propertyId
        guestName := String.mk (extractGuestName (summaryOf ev).toList ev.description)
        checkIn := String.mk (dateOnly i)
        checkOut := String.mk (dateOnly o)
        nights := nightCount i o
        total := 0
        source := "airbnb"
        summary := summaryOf ev }
    | _, _ => none

/-- `parseIcal`: the fetch outcome is either the decoded event list in feed
enumeration order, or the message of the error thrown inside the `try`;
the `catch` turns any thrown error into the sentinel `null` (`none`). -/
def parseIcal (fetched : Except String (List IcalEvent)) (propertyId : String) :
    Option (List Reservation) :=
  match fetched with
  | .error _ => none
  | .ok evs => some (evs.filterMap (classify propertyId))

/-- One value of the `propertyCache` object. -/
structure PropEntry where
  icalUrl : String
  name : String
  reservations : List Reservation
  lastSynced : Option String
deriving DecidableEq

/-- The `propertyCache` object: key/value pairs in enumeration order
(updating an existing key keeps its position, a new key is appended). -/
abbrev Store := List (String × PropEntry)

/-- `propertyCache[pid]` as a read. -/
def lookupStore (s : Store) (pid : String) : Option PropEntry :=
  (s.find? (fun p => p.1 == pid)).map Prod.snd

/-- `propertyCache[pid] = e`: update in place or append. -/
def setStore : Store → String → PropEntry → Store
  | [], pid, e => [(pid, e)]
  | (q, f) :: rest, pid, e =>
    if q = pid then (q, e) :: rest else (q, f) :: setStore rest pid e

/-- One iteration of the `syncAll` loop on one cache entry: on a parse
failure (`null`) the entry is left untouched, otherwise `reservations`
and `lastSynced` are both replaced. -/
def syncEntry (fetch : String → Except String (List IcalEvent)) (now : String)
    (pid : String) (e : PropEntry) : PropEntry :=
  match parseIcal (fetch e.icalUrl) pid with
  | some rs => { e with reservations := rs, lastSynced := some now }
  | none => e

/-- `syncAll`: every registered property is processed, each from its own
stored url, each updated (or not) independently. -/
def syncAll (fetch : String → Except String (List IcalEvent)) (now : String)
    (store : Store) : Store :=
  store.map (fun p => (p.1, syncEntry fetch now p.1 p.2))

/-- The JSON body of `POST /properties`; `none` models an absent field. -/
structure RegisterRequest where
  propertyId : Option String
  name : Option String
  icalUrl : Option String
deriving DecidableEq

/-- The response of `POST /properties`: 400, 500, or the success body. -/
inductive RegisterResponse where
  | badRequest (error : String)
  | serverError (error : String)
  | ok (propertyId : String) (name : Option String) (reservationCount : Nat)
      (lastSynced : Option String)
deriving DecidableEq

/-- JS falsiness of an optional string: `undefined` or `""`. -/
def falsyStr : Option String → Bool
  | none => true
  | some s => s == ""

/-- `icalUrl.startsWith("https://")`. -/
def startsWithHttps (u : String) : Bool :=
  "https://".toList.isPrefixOf u.toList

/-- `name || "Property " + propertyId`: the stored display name. -/
def registerName (req : RegisterRequest) (pid : String) : String :=
  match req.name with
  | some n => if n = "" then "Property " ++ pid else n
  | none => "Property " ++ pid

/-- The `POST /properties` handler: validation, cache write, immediate
sync of the one property, and the response. Returns the updated cache
and the response. -/
def registerProperty (fetch : String → Except String (List IcalEvent))
    (now : String) (store : Store) (req : RegisterRequest) :
    Store × RegisterResponse :=
  if falsyStr req.propertyId || falsyStr req.icalUrl then
    (store, .badRequest "propertyId and icalUrl are required")
  else
    let pid := req.propertyId.getD ""
    let url := req.icalUrl.getD ""
    if !startsWithHttps url then
      (store, .badRequest "icalUrl must be a valid https:// URL")
    else
      let entry0 : PropEntry := {
        icalUrl := url
        name := registerName req pid
        reservations := match lookupStore store pid with
          | some e => e.reservations
          | none => []
        lastSynced := none }
      let store1 := setStore store pid entry0
      match parseIcal (fetch url) pid with
      | some rs =>
        (setStore store1 pid
          { entry0 with reservations := rs, lastSynced := some now },
         .ok pid req.name rs.length (some now))
      | none =>
        (store1,
         .serverError
           "Failed to fetch or parse iCal URL. Please check the URL and try again.")

/-- One element of the `syncStatus` array. -/
structure SyncStatusEntry where
  propertyId : String
  name : String
  lastSynced : Option String
  reservationCount : Nat
deriving DecidableEq

/-- The response body of `GET /reservations`. -/
structure ReservationsResponse where
  reservations : List Reservation
  syncStatus : List SyncStatusEntry
  totalProperties : Nat
deriving DecidableEq

def statusOf (pid : String) (e : PropEntry) : SyncStatusEntry :=
  { propertyId := pid, name := e.name, lastSynced := e.lastSynced,
    reservationCount := e.reservations.length }

/-- The `GET /reservations` handler: `syncStatus` collects every entry;
the reservations of an entry are included when the query filter is falsy
(`undefined` or `""`) or its key equals the filter. -/
def getReservations (store : Store) (filter : Option String) :
    ReservationsResponse :=
  { reservations :=
      (store.filter (fun p => falsyStr filter || p.1 == filter.getD "")).flatMap
        (fun p => p.2.reservations)
    syncStatus := store.map (fun p => statusOf p.1 p.2)
    totalProperties := store.length }

/-! ### Concrete feed data used by counterexamples and witnesses -/

/-- A blocked-date event, as Airbnb publishes them. -/
def evNotAvailable : IcalEvent :=
  { type := "VEVENT", summary := some "Airbnb (Not available)",
    description := none, start := some 0, «end» := some 86400000,
    uid := some "block-1" }

/-- A confirmed booking whose summary carries the platform name. -/
def evReservedHM : IcalEvent :=
  { type := "VEVENT", summary := some "Reserved - Airbnb (HM1234)",
    description := none, start := some 0, «end» := some 86400000,
    uid := some "hm-1" }

/-- A booking with a plain guest name and equal start and end instants. -/
def evZeroNights : IcalEvent :=
  { type := "VEVENT", summary := some "Reserved - Jane Doe",
    description := none, start := some 0, «end» := some 0,
    uid := some "zero-1" }

/-- A booking whose summary separator is followed only by whitespace. -/
def evTrailingSep : IcalEvent :=
  { type := "VEVENT", summary := some "Reserved - ",
    description := none, start := some 0, «end» := some 86400000,
    uid := some "trail-1" }

/-- A one-night booking with a plain guest name. -/
def evJane : IcalEvent :=
  { type := "VEVENT", summary := some "Reserved - Jane Doe",
    description := none, start := some 0, «end» := some 86400000,
    uid := some "jane-1" }

/-- An event matching neither guest-name pattern. -/
def evPlain : IcalEvent :=
  { type := "VEVENT", summary := some "Booked stay",
    description := some "no labels here", start := some 0,
    «end» := some 86400000, uid := some "plain-1" }

/-- A to-do entry: not a `VEVENT`, so never eligible. -/
def evTodo : IcalEvent :=
  { type := "VTODO", summary := some "Reserved - X",
    description := none, start := some 0, «end» := some 86400000,
    uid := some "todo-1" }

/-! ### Substring scanning agrees with list containment -/

/-- `hasSubstr` decides the infix relation: `hay.includes(needle)` holds
exactly when `needle` occurs contiguously inside `hay`. -/
theorem hasSubstr_iff (hay needle : List Char) :
    hasSubstr hay needle = true ↔ needle <:+: hay := by
  induction hay with
  | nil =>
    simp [hasSubstr, List.isPrefixOf_iff_prefix, List.prefix_nil,
      List.infix_nil]
  | cons h t ih =>
    simp [hasSubstr, List.isPrefixOf_iff_prefix, ih, List.infix_cons_iff]

/-- C2: an eligible event is skipped as a blackout iff its summary,
case-insensitively, contains "not available", or contains "airbnb" while
not containing "reserved"; `"Airbnb (Not available)"` is skipped and
`"Reserved - Airbnb (HM1234)"` yields a reservation whose guest name is
`"Airbnb (HM1234)"`. -/
theorem c2_blackout_rule :
    (∀ s : String, isBlocked s.toList = true ↔
      ("not available".toList <:+: lowerStr s.toList ∨
        ("airbnb".toList <:+: lowerStr s.toList ∧
          ¬ "reserved".toList <:+: lowerStr s.toList))) ∧
    classify "p1" evNotAvailable = none ∧
    (classify "p1" evReservedHM).map Reservation.guestName =
      some "Airbnb (HM1234)" := by
  refine ⟨fun s => ?_, by decide, by decide⟩
  simp [isBlocked, hasSubstr_iff, Bool.or_eq_true, Bool.and_eq_true,
    Bool.not_eq_true']
  simp [← hasSubstr_iff]

/-- C2 witness: the blackout rule applied to the concrete summary
`"Airbnb (Not available)"`. -/
theorem c2_blackout_rule_witness :
    isBlocked ("Airbnb (Not available)".toList) = true :=
  (c2_blackout_rule.1 "Airbnb (Not available)").mpr (Or.inl (by decide))

/-- C1 counterexample: an eligible event whose computed night count is 0
(< 1) is not dropped — `parseIcal` emits it, with `checkIn = checkOut`. -/
theorem c1_counterexample :
    (parseIcal (.ok [evZeroNights]) "p1").map
        (fun rs => rs.map (fun r => (r.nights, r.checkIn, r.checkOut))) =
      some [(0, "1970-01-01", "1970-01-01")] := by decide

/-- C1 amended: the parser applies no night-count filter: every eligible,
non-blackout event with both instants present is emitted, and its
`nights` field is exactly `round((checkOut - checkIn) in days)`, which
may be less than 1. -/
theorem c1_amended_no_night_filter :
    ∀ (pid : String) (ev : IcalEvent) (i o : Int),
      ev.type = "VEVENT" → isBlocked (summaryOf ev).toList = false →
      ev.start = some i → ev.«end» = some o →
      ∃ r, classify pid ev = some r ∧ r.nights = nightCount i o := by
  intro pid ev i o ht hb hs he
  have h : classify pid ev = some
      { id := eventId pid ev i, propertyId := pid,
        guestName := String.mk (extractGuestName (summaryOf ev).toList ev.description),
        checkIn := String.mk (dateOnly i), checkOut := String.mk (dateOnly o),
        nights := nightCount i o, total := 0, source := "airbnb",
        summary := summaryOf ev } := by
    rw [String.toList] at hb
    simp [classify, ht, hb, hs, he]
  exact ⟨_, h, rfl⟩

/-- C1 witness: the amended statement applied to the zero-night event. -/
theorem c1_witness :
    ∃ r, classify "p1" evZeroNights = some r ∧ r.nights = nightCount 0 0 :=
  c1_amended_no_night_filter "p1" evZeroNights 0 0 rfl (by decide) rfl rfl

/-- C7 counterexample: the failure value returned by `parseIcal` is the
bare sentinel `null` — two different fetch errors produce the identical
outcome, so the returned value carries no human-readable cause. -/
theorem c7_counterexample :
    parseIcal (.error "getaddrinfo ENOTFOUND example.com") "p1" =
      parseIcal (.error "Invalid calendar data") "p1" ∧
    parseIcal (.error "getaddrinfo ENOTFOUND example.com") "p1" = none := by
  exact ⟨rfl, rfl⟩

/-- C7 amended: every fetch or decode failure yields the sentinel failure
value `null` (the cause is logged, not carried in the value) and never an
uncaught exception; a feed with zero eligible events yields `[]`, not a
failure. -/
theorem c7_amended_sentinel_failure :
    (∀ (msg pid : String), parseIcal (.error msg) pid = none) ∧
    (∀ pid : String, parseIcal (.ok []) pid = some []) ∧
    (∀ (evs : List IcalEvent) (pid : String),
      (∀ ev ∈ evs, classify pid ev = none) →
      parseIcal (.ok evs) pid = some []) := by
  refine ⟨fun _ _ => rfl, fun _ => rfl, fun evs pid h => ?_⟩
  simp only [parseIcal, Option.some.injEq]
  exact List.filterMap_eq_nil_iff.mpr h

/-- C7 witness: a feed whose only entry is ineligible parses to `[]`. -/
theorem c7_witness : parseIcal (.ok [evTodo]) "p1" = some [] :=
  c7_amended_sentinel_failure.2.2 [evTodo] "p1" (by decide)

/-! ### Guest-name extraction (C3) -/

/-- The extractor's case split: summary pattern first, then the
description label when the description is truthy, else the fallback. -/
theorem extractGuestName_spec (s : List Char) (d : Option String) :
    (∃ g, scanReserved s = some g ∧ extractGuestName s d = trimJS g) ∨
    (scanReserved s = none ∧
      ∃ d0 g, d = some d0 ∧ d0 ≠ "" ∧ scanGuestName d0.toList = some g ∧
        extractGuestName s d = trimJS g) ∨
    (scanReserved s = none ∧ extractGuestName s d = "Airbnb Guest".toList ∧
      ∀ d0, d = some d0 → d0 ≠ "" → scanGuestName d0.toList = none) := by
  cases hr : scanReserved s with
  | some g => exact Or.inl ⟨g, rfl, by simp [extractGuestName, hr]⟩
  | none =>
    cases d with
    | none =>
      refine Or.inr (Or.inr ⟨rfl, by simp [extractGuestName, hr], ?_⟩)
      intro d0 h; cases h
    | some d0 =>
      by_cases hd : d0 = ""
      · subst hd
        refine Or.inr (Or.inr ⟨rfl, by simp [extractGuestName, hr], ?_⟩)
        intro d1 h1 h2
        injection h1 with h1
        exact absurd h1.symm h2
      · cases hg : scanGuestName d0.toList with
        | some g =>
          have hg' : scanGuestName d0.data = some g := hg
          exact Or.inr (Or.inl ⟨rfl, d0, g, rfl, hd, hg,
            by simp [extractGuestName, hr, hd, hg']⟩)
        | none =>
          have hg' : scanGuestName d0.data = none := hg
          refine Or.inr (Or.inr ⟨rfl,
            by simp [extractGuestName, hr, hd, hg'], ?_⟩)
          intro d1 h1 _
          injection h1 with h1
          subst h1
          exact hg

/-- The guest name of every emitted reservation is the extractor's result
on the event's summary and description. -/
theorem classify_guestName (pid : String) (ev : IcalEvent) (r : Reservation)
    (h : classify pid ev = some r) :
    r.guestName =
      String.mk (extractGuestName (summaryOf ev).toList ev.description) := by
  by_cases ht : ev.type = "VEVENT"
  · by_cases hb : isBlocked (summaryOf ev).toList = true
    · have hb' : isBlocked (summaryOf ev).data = true := hb
      simp [classify, ht, hb'] at h
    · have hb' : isBlocked (summaryOf ev).data = false :=
        Bool.eq_false_iff.mpr hb
      cases hs : ev.start with
      | none => simp [classify, ht, hb', hs] at h
      | some i =>
        cases he : ev.«end» with
        | none => simp [classify, ht, hb', hs, he] at h
        | some o =>
          simp [classify, ht, hb', hs, he] at h
          rw [← h]
          rfl
  · simp [classify, ht] at h

/-- C3 counterexample: an emitted reservation whose guest name is the
empty string — summary `"Reserved - "` matches the summary pattern with
whitespace-only trailing text, so the trimmed name is `""`, refuting
"never empty". -/
theorem c3_counterexample :
    (classify "p1" evTrailingSep).map Reservation.guestName = some "" := by
  decide

/-- C3 amended: the guest name follows the priority order — summary
pattern, then description label, then the fixed fallback — but when a
matched pattern's trailing text is whitespace-only, the trimmed guest
name is empty, so "never empty" does not hold. Also the spec examples:
`"Reserved - Jane Doe"` → `"Jane Doe"`; no pattern → `"Airbnb Guest"`. -/
theorem c3_amended_priority :
    (∀ (pid : String) (ev : IcalEvent) (r : Reservation),
      classify pid ev = some r →
      ((∃ g, scanReserved (summaryOf ev).toList = some g ∧
          r.guestName = String.mk (trimJS g)) ∨
       (scanReserved (summaryOf ev).toList = none ∧
        ∃ d g, ev.description = some d ∧ d ≠ "" ∧
          scanGuestName d.toList = some g ∧
          r.guestName = String.mk (trimJS g)) ∨
       (scanReserved (summaryOf ev).toList = none ∧
        r.guestName = "Airbnb Guest" ∧
        ∀ d, ev.description = some d → d ≠ "" →
          scanGuestName d.toList = none))) ∧
    (classify "p1" evJane).map Reservation.guestName = some "Jane Doe" ∧
    (classify "p1" evPlain).map Reservation.guestName =
      some "Airbnb Guest" := by
  refine ⟨?_, by decide, by decide⟩
  intro pid ev r h
  have hg := classify_guestName pid ev r h
  rcases extractGuestName_spec (summaryOf ev).toList ev.description with
    ⟨g, h1, h2⟩ | ⟨h1, d0, g, hd, hne, hsg, h2⟩ | ⟨h1, h2, h3⟩
  · exact Or.inl ⟨g, h1, by rw [hg, h2]⟩
  · exact Or.inr (Or.inl ⟨h1, d0, g, hd, hne, hsg, by rw [hg, h2]⟩)
  · exact Or.inr (Or.inr ⟨h1, by rw [hg, h2]; rfl, h3⟩)

/-- C3 witness: the priority rule applied at the concrete event
`evJane` and its emitted reservation. -/
theorem c3_witness :
    (classify "p1" evJane).map Reservation.guestName = some "Jane Doe" := by
  have h := c3_amended_priority.1 "p1" evJane
  rcases hc : classify "p1" evJane with _ | r
  · exact absurd hc (by decide)
  · rcases h r hc with ⟨g, hg, h2⟩ | ⟨h1, _⟩ | ⟨h1, _, _⟩
    · have he : scanReserved (summaryOf evJane).toList =
          some ("Jane Doe".toList) := by decide
      rw [he] at hg
      injection hg with hg
      subst hg
      simp [h2]
      decide
    · exact absurd h1 (by decide)
    · exact absurd h1 (by decide)

/-! ### Concrete store data for the sync and registration claims -/

/-- A property whose feed will fail to fetch. -/
def entryA : PropEntry :=
  { icalUrl := "https://a.example/cal.ics", name := "A", reservations := [],
    lastSynced := some "2024-01-01T00:00:00.000Z" }

/-- A property whose feed fetches fine. -/
def entryB : PropEntry :=
  { icalUrl := "https://b.example/cal.ics", name := "B", reservations := [],
    lastSynced := none }

def storeC4 : Store := [("pa", entryA), ("pb", entryB)]

/-- A fetch oracle for which only property B's url resolves. -/
def fetchC4 : String → Except String (List IcalEvent) := fun u =>
  if u = "https://a.example/cal.ics" then .error "getaddrinfo ENOTFOUND"
  else .ok [evJane]

/-- A fetch oracle that always fails. -/
def fetchFail : String → Except String (List IcalEvent) :=
  fun _ => .error "fetch failed"

/-- The prior state of a property about to be re-registered. -/
def priorEntry : PropEntry :=
  { icalUrl := "https://old.example/a.ics", name := "Old Name",
    reservations := [], lastSynced := some "2024-05-01T00:00:00.000Z" }

def storeC5 : Store := [("p1", priorEntry)]

/-- A re-registration of the already-known id `"p1"`. -/
def reqC5 : RegisterRequest :=
  { propertyId := some "p1", name := some "New Name",
    icalUrl := some "https://new.example/b.ics" }

/-- A registration with a non-https url. -/
def reqC6 : RegisterRequest :=
  { propertyId := some "p9", name := none,
    icalUrl := some "http://insecure.example/cal.ics" }

/-! ### Sync failure isolation (C4) -/

/-- C4: in `syncAll`, a property whose parse fails keeps its entry —
`reservations` and `lastSynced` included — completely unchanged, the
cache keeps every property, and every property (failing or not) is
processed independently from its own prior entry. -/
theorem c4_failed_sync_isolation :
    ∀ (fetch : String → Except String (List IcalEvent)) (now : String)
      (store : Store) (pid : String) (e : PropEntry),
      (pid, e) ∈ store → parseIcal (fetch e.icalUrl) pid = none →
      (pid, e) ∈ syncAll fetch now store ∧
      (syncAll fetch now store).length = store.length ∧
      ∀ q f, (q, f) ∈ store →
        (q, syncEntry fetch now q f) ∈ syncAll fetch now store := by
  intro fetch now store pid e hmem hfail
  refine ⟨?_, by simp [syncAll], ?_⟩
  · have h1 : syncEntry fetch now pid e = e := by simp [syncEntry, hfail]
    have h2 := List.mem_map_of_mem
      (fun p : String × PropEntry => (p.1, syncEntry fetch now p.1 p.2)) hmem
    simpa [syncAll, h1] using h2
  · intro q f hqf
    exact List.mem_map_of_mem _ hqf

/-- C4 witness: property `"pa"` fails to fetch and its entry — stale
timestamp included — survives the sync unchanged. -/
theorem c4_witness :
    ("pa", entryA) ∈ syncAll fetchC4 "2024-02-02T00:00:00.000Z" storeC4 :=
  (c4_failed_sync_isolation fetchC4 "2024-02-02T00:00:00.000Z" storeC4 "pa"
    entryA (by decide) (by decide)).1

/-! ### Re-registration of a known id (C5) -/

/-- Writing a key then reading it back yields the written entry. -/
theorem lookupStore_setStore (s : Store) (pid : String) (e : PropEntry) :
    lookupStore (setStore s pid e) pid = some e := by
  induction s with
  | nil => simp [setStore, lookupStore]
  | cons p rest ih =>
    obtain ⟨q, f⟩ := p
    by_cases h : q = pid
    · subst h
      simp [setStore, lookupStore]
    · simp [setStore, lookupStore, h] at ih ⊢
      exact ih

/-- C5 counterexample: re-registering the known id `"p1"` resets
`lastSynced` to `null` instead of preserving its prior value (visible
after the immediate re-sync fails). -/
theorem c5_counterexample :
    (lookupStore
        (registerProperty fetchFail "2024-06-01T00:00:00.000Z" storeC5 reqC5).1
        "p1").map PropEntry.lastSynced = some none ∧
    priorEntry.lastSynced = some "2024-05-01T00:00:00.000Z" := by
  exact ⟨by decide, rfl⟩

/-- C5 amended: re-registering an existing id overwrites the url and
name and preserves the existing reservations until the immediate re-sync
completes, but resets `lastSynced` to `null`; it is set afresh only when
the immediate re-sync succeeds. -/
theorem c5_amended_register_existing :
    ∀ (fetch : String → Except String (List IcalEvent)) (now : String)
      (store : Store) (req : RegisterRequest) (pid url : String)
      (prior : PropEntry),
      req.propertyId = some pid → pid ≠ "" → req.icalUrl = some url →
      startsWithHttps url = true → lookupStore store pid = some prior →
      (parseIcal (fetch url) pid = none →
        lookupStore (registerProperty fetch now store req).1 pid =
          some { icalUrl := url, name := registerName req pid,
                 reservations := prior.reservations, lastSynced := none }) ∧
      (∀ rs, parseIcal (fetch url) pid = some rs →
        lookupStore (registerProperty fetch now store req).1 pid =
          some { icalUrl := url, name := registerName req pid,
                 reservations := rs, lastSynced := some now }) := by
  intro fetch now store req pid url prior hpid hne hurl hhttps hprior
  have hne2 : url ≠ "" := by
    intro h
    rw [h] at hhttps
    exact absurd hhttps (by decide)
  have hb1 : (pid == "") = false := beq_eq_false_iff_ne.mpr hne
  have hb2 : (url == "") = false := beq_eq_false_iff_ne.mpr hne2
  constructor
  · intro hfail
    simp [registerProperty, hpid, hurl, falsyStr, hb1, hb2, hhttps, hprior,
      hfail, lookupStore_setStore]
  · intro rs hok
    simp [registerProperty, hpid, hurl, falsyStr, hb1, hb2, hhttps, hprior,
      hok, lookupStore_setStore]

/-- C5 witness: the amended statement at the concrete re-registration
whose immediate re-sync fails. -/
theorem c5_witness :
    lookupStore
        (registerProperty fetchFail "2024-06-01T00:00:00.000Z" storeC5 reqC5).1
        "p1" =
      some { icalUrl := "https://new.example/b.ics",
             name := registerName reqC5 "p1",
             reservations := priorEntry.reservations, lastSynced := none } :=
  (c5_amended_register_existing fetchFail "2024-06-01T00:00:00.000Z" storeC5
    reqC5 "p1" "https://new.example/b.ics" priorEntry rfl (by decide) rfl
    (by decide) (by decide)).1 rfl

/-! ### Registration validation (C6) -/

/-- C6: a registration with a missing `propertyId`, a missing `icalUrl`,
or an `icalUrl` that does not start with `https://` is answered with the
400 validation error and leaves the cache unmodified. -/
theorem c6_validation_rejects :
    ∀ (fetch : String → Except String (List IcalEvent)) (now : String)
      (store : Store) (req : RegisterRequest),
      (req.propertyId = none ∨ req.icalUrl = none ∨
        ∃ u, req.icalUrl = some u ∧ startsWithHttps u = false) →
      (registerProperty fetch now store req).1 = store ∧
      ∃ msg, (registerProperty fetch now store req).2 =
        RegisterResponse.badRequest msg := by
  intro fetch now store req h
  rcases h with h | h | ⟨u, hu, hns⟩
  · have hf : falsyStr req.propertyId = true := by rw [h]; rfl
    exact ⟨by simp [registerProperty, hf], "propertyId and icalUrl are required",
      by simp [registerProperty, hf]⟩
  · have hf : falsyStr req.icalUrl = true := by rw [h]; rfl
    exact ⟨by simp [registerProperty, hf], "propertyId and icalUrl are required",
      by simp [registerProperty, hf]⟩
  · by_cases hp : falsyStr req.propertyId = true
    · exact ⟨by simp [registerProperty, hp],
        "propertyId and icalUrl are required",
        by simp [registerProperty, hp]⟩
    · by_cases hu0 : u = ""
      · have hf : falsyStr req.icalUrl = true := by rw [hu, hu0]; rfl
        exact ⟨by simp [registerProperty, hf],
          "propertyId and icalUrl are required",
          by simp [registerProperty, hf]⟩
      · have h1 : falsyStr req.propertyId = false := Bool.eq_false_iff.mpr hp
        have h2 : falsyStr (some u) = false := by
          simpa [falsyStr] using hu0
        exact ⟨by simp [registerProperty, h1, h2, hu, hns],
          "icalUrl must be a valid https:// URL",
          by simp [registerProperty, h1, h2, hu, hns]⟩

/-- C6 witness: a non-https registration leaves the cache unchanged. -/
theorem c6_witness :
    (registerProperty fetchFail "t0" storeC5 reqC6).1 = storeC5 :=
  (c6_validation_rejects fetchFail "t0" storeC5 reqC6
    (Or.inr (Or.inr ⟨"http://insecure.example/cal.ics", rfl, by decide⟩))).1

/-! ### Reservation ids (C8, C9) -/

/-- Two uid-less bookings that share a check-in instant. -/
def evNoUid1 : IcalEvent :=
  { type := "VEVENT", summary := some "Reserved - Ann", description := none,
    start := some 0, «end» := some 86400000, uid := none }

def evNoUid2 : IcalEvent :=
  { type := "VEVENT", summary := some "Reserved - Ben", description := none,
    start := some 0, «end» := some 172800000, uid := none }

def fetchDup : String → Except String (List IcalEvent) :=
  fun _ => .ok [evNoUid1, evNoUid2]

def storeC8 : Store :=
  [("p8", { icalUrl := "https://dup.example/cal.ics", name := "Dup",
            reservations := [], lastSynced := none })]

/-- Two bookings with distinct non-empty uids. -/
def evU1 : IcalEvent :=
  { type := "VEVENT", summary := some "Reserved - Ann", description := none,
    start := some 0, «end» := some 86400000, uid := some "u-1" }

def evU2 : IcalEvent :=
  { type := "VEVENT", summary := some "Reserved - Ben", description := none,
    start := some 86400000, «end» := some 172800000, uid := some "u-2" }

/-- An emitted reservation carries its event's uid as id whenever that
uid is present and non-empty. -/
theorem classify_id_of_uid (pid : String) (ev : IcalEvent) (r : Reservation)
    (u : String) (h : classify pid ev = some r) (hu : ev.uid = some u)
    (hne : u ≠ "") : r.id = u := by
  by_cases ht : ev.type = "VEVENT"
  · by_cases hb : isBlocked (summaryOf ev).toList = true
    · have hb' : isBlocked (summaryOf ev).data = true := hb
      simp [classify, ht, hb'] at h
    · have hb' : isBlocked (summaryOf ev).data = false :=
        Bool.eq_false_iff.mpr hb
      cases hs : ev.start with
      | none => simp [classify, ht, hb', hs] at h
      | some i =>
        cases he : ev.«end» with
        | none => simp [classify, ht, hb', hs, he] at h
        | some o =>
          simp [classify, ht, hb', hs, he] at h
          rw [← h]
          simp [eventId, hu, hne]
  · simp [classify, ht] at h

/-- An emitted reservation's id is `eventId` at the event's start. -/
theorem classify_id (pid : String) (ev : IcalEvent) (r : Reservation)
    (h : classify pid ev = some r) (i : Int) (hi : ev.start = some i) :
    r.id = eventId pid ev i := by
  by_cases ht : ev.type = "VEVENT"
  · by_cases hb : isBlocked (summaryOf ev).toList = true
    · have hb' : isBlocked (summaryOf ev).data = true := hb
      simp [classify, ht, hb'] at h
    · have hb' : isBlocked (summaryOf ev).data = false :=
        Bool.eq_false_iff.mpr hb
      cases he : ev.«end» with
      | none => simp [classify, ht, hb', hi, he] at h
      | some o =>
        simp [classify, ht, hb', hi, he] at h
        rw [← h]
  · simp [classify, ht] at h

/-- When every eligible (`VEVENT`) entry carries a non-empty uid, the
emitted ids form a sublist of the eligible entries' uid list; ineligible
entries are unconstrained since `classify` skips them. -/
theorem ids_sublist_uids (pid : String) :
    ∀ evs : List IcalEvent,
      (∀ ev ∈ evs, ev.type = "VEVENT" → ∃ u, ev.uid = some u ∧ u ≠ "") →
      ((evs.filterMap (classify pid)).map Reservation.id).Sublist
        ((evs.filter (fun ev => ev.type == "VEVENT")).filterMap
          IcalEvent.uid) := by
  intro evs
  induction evs with
  | nil =>
    intro _
    simp
  | cons ev rest ih =>
    intro h
    have hrest := fun e he het => h e (List.mem_cons_of_mem _ he) het
    by_cases ht : ev.type = "VEVENT"
    · obtain ⟨u, hu, hne⟩ := h ev (List.mem_cons_self ev rest) ht
      have ht' : (ev.type == "VEVENT") = true := beq_iff_eq.mpr ht
      cases hc : classify pid ev with
      | none =>
        simp only [List.filterMap_cons, hc, List.filter_cons, ht', if_true,
          hu]
        exact (ih hrest).cons u
      | some r =>
        have hid : r.id = u := classify_id_of_uid pid ev r u hc hu hne
        simp only [List.filterMap_cons, hc, List.map_cons, hid,
          List.filter_cons, ht', if_true, hu]
        exact (ih hrest).cons₂ u
    · have hc : classify pid ev = none := by simp [classify, ht]
      have ht' : (ev.type == "VEVENT") = false := beq_eq_false_iff_ne.mpr ht
      simp only [List.filterMap_cons, hc, List.filter_cons, ht',
        Bool.false_eq_true, if_false]
      exact ih hrest

/-- C8 counterexample: a successful sync of a feed with two uid-less
events sharing a check-in instant stores two reservations with the same
synthesized id — the ids are not pairwise distinct. -/
theorem c8_counterexample :
    (lookupStore (syncAll fetchDup "2024-03-03T00:00:00.000Z" storeC8)
        "p8").map (fun e => (e.lastSynced, e.reservations.map Reservation.id)) =
      some (some "2024-03-03T00:00:00.000Z",
        ["p8-1970-01-01T00:00:00.000Z", "p8-1970-01-01T00:00:00.000Z"]) ∧
    ¬ (["p8-1970-01-01T00:00:00.000Z",
        "p8-1970-01-01T00:00:00.000Z"] : List String).Nodup := by
  exact ⟨by decide, by decide⟩

/-- C8 amended: the parser performs no deduplication; reservation ids
after a successful sync are pairwise distinct provided the feed's
eligible (`VEVENT`) events carry pairwise-distinct non-empty uids —
ineligible entries (calendar metadata, todos) are unconstrained. Without
that proviso, duplicate uids or uid-less eligible events sharing a
check-in instant yield duplicate ids. -/
theorem c8_amended_unique_ids :
    ∀ (pid : String) (evs : List IcalEvent) (rs : List Reservation),
      parseIcal (.ok evs) pid = some rs →
      (∀ ev ∈ evs, ev.type = "VEVENT" → ∃ u, ev.uid = some u ∧ u ≠ "") →
      ((evs.filter (fun ev => ev.type == "VEVENT")).filterMap
        IcalEvent.uid).Nodup →
      (rs.map Reservation.id).Nodup := by
  intro pid evs rs hp hall hnd
  have hrs : evs.filterMap (classify pid) = rs := by
    simpa [parseIcal] using hp
  rw [← hrs]
  exact List.Nodup.sublist (ids_sublist_uids pid evs hall) hnd

/-- A uid-less non-`VEVENT` entry, as node-ical surfaces for calendar
metadata. -/
def evMeta : IcalEvent :=
  { type := "VCALENDAR", summary := none, description := none,
    start := none, «end» := none, uid := none }

/-- C8 witness: the amended statement at a feed whose eligible events
carry distinct uids and which also contains a uid-less ineligible
entry. -/
theorem c8_witness :
    ((([evMeta, evU1, evU2].filterMap (classify "p8")).map
      Reservation.id)).Nodup :=
  c8_amended_unique_ids "p8" [evMeta, evU1, evU2] _ rfl (by decide)
    (by decide)

/-- A booking with a non-empty uid used to instantiate C9. -/
def evC9 : IcalEvent :=
  { type := "VEVENT", summary := some "Reserved - Jane Doe",
    description := none, start := some 0, «end» := some 86400000,
    uid := some "ev-abc" }

/-- The reservation `classify "p1" evC9` emits. -/
def rC9 : Reservation :=
  { id := "ev-abc", propertyId := "p1", guestName := "Jane Doe",
    checkIn := "1970-01-01", checkOut := "1970-01-02", nights := 1,
    total := 0, source := "airbnb", summary := "Reserved - Jane Doe" }

/-- C9: the parser is a pure function of the decoded feed content and the
property id, so parsing the same unchanged feed twice yields identical
reservation lists; each emitted id is the event's uid when that is
present (non-empty — an empty uid is falsy and treated as absent),
otherwise `propertyId + "-" + checkIn.toISOString()`. -/
theorem c9_deterministic_ids :
    ∀ (fetched : Except String (List IcalEvent)) (pid : String),
      parseIcal fetched pid = parseIcal fetched pid ∧
      ∀ (ev : IcalEvent) (r : Reservation), classify pid ev = some r →
        (∀ u, ev.uid = some u → u ≠ "" → r.id = u) ∧
        (∀ i, ev.start = some i → (ev.uid = none ∨ ev.uid = some "") →
          r.id = pid ++ "-" ++ String.mk (isoOfMs i)) := by
  intro fetched pid
  refine ⟨rfl, ?_⟩
  intro ev r h
  constructor
  · intro u hu hne
    exact classify_id_of_uid pid ev r u h hu hne
  · intro i hi huid
    rcases huid with hn | he0
    · exact (classify_id pid ev r h i hi).trans (by simp [eventId, hn])
    · exact (classify_id pid ev r h i hi).trans (by simp [eventId, he0])

/-- C9 witness: the id rule applied at a concrete event with a uid. -/
theorem c9_witness : rC9.id = "ev-abc" :=
  ((c9_deterministic_ids (Except.ok [evC9]) "p1").2 evC9 rC9
    (by decide)).1 "ev-abc" rfl (by decide)

/-! ### Filtered reservation queries (C10) -/

/-- C10: with a non-empty `propertyId` filter, only the reservations
array is restricted to the matching property; `syncStatus` keeps one
entry per registered property and `totalProperties` counts all of them,
and a filter matching no property yields an empty reservations array. -/
theorem c10_filtered_query :
    ∀ (store : Store) (p : String), p ≠ "" →
      (getReservations store (some p)).syncStatus =
        store.map (fun q => statusOf q.1 q.2) ∧
      (getReservations store (some p)).totalProperties = store.length ∧
      (getReservations store (some p)).reservations =
        (store.filter (fun q => q.1 = p)).flatMap
          (fun q => q.2.reservations) ∧
      ((∀ q ∈ store, q.1 ≠ p) →
        (getReservations store (some p)).reservations = []) := by
  intro store p hp
  have hf : falsyStr (some p) = false := by simpa [falsyStr] using hp
  have hres : (getReservations store (some p)).reservations =
      (store.filter (fun q => q.1 = p)).flatMap (fun q => q.2.reservations) := by
    simp only [getReservations, hf, Bool.false_or]
    congr 1
  refine ⟨rfl, rfl, hres, ?_⟩
  intro h
  rw [hres]
  have hnil : store.filter (fun q => q.1 = p) = [] := by
    rw [List.filter_eq_nil_iff]
    intro a ha
    simpa using h a ha
  simp [hnil]

/-- C10 witness: a filter matching no registered property still yields
the full status list and an empty reservations array. -/
theorem c10_witness :
    (getReservations storeC4 (some "zz")).reservations = [] :=
  (c10_filtered_query storeC4 "zz" (by decide)).2.2.2 (by decide)

end Hostly
